import Mathlib

/-!
Verification of the simulation configuration manager of the `ateam-tools`
repository (`src/ateam/sim/setup/sim_manager.py`).

The embedding models Python strings as `List Char`, Python dicts as
insertion-ordered association lists (`dictInsert` replaces an existing key in
place and appends fresh keys at the end, matching CPython semantics), the JSON
configuration document as the inductive `JVal`, and the filesystem as an
association list from absolute paths to `FileContent`.  Exceptions raised by
the Python code are modelled with `PyErr` and `Except` / `Option PyErr`
results.  Note that in CPython an expression statement `Warning("msg")` merely
constructs an exception object and discards it: it does not raise and does not
emit anything through the `warnings` machinery.  The `warnings` field of the
manager state models the emitted-warnings stream, which consequently is never
appended to by any operation of `sim_manager.py`.
-/

/-- Python strings are modelled as lists of characters. -/
abbrev Str := List Char

/-- Lookup in a Python dict modelled as an association list. -/
def dictGet {α β : Type} [DecidableEq α] (d : List (α × β)) (k : α) : Option β :=
  match d with
  | [] => none
  | (k', v) :: rest => if k' = k then some v else dictGet rest k

/-- Python `d[k] = v`: replace the value of an existing key in place,
otherwise append the new key at the end (CPython insertion order). -/
def dictInsert {α β : Type} [DecidableEq α] (d : List (α × β)) (k : α) (v : β) :
    List (α × β) :=
  match d with
  | [] => [(k, v)]
  | (k', v') :: rest =>
      if k' = k then (k, v) :: rest else (k', v') :: dictInsert rest k v

/-- Python `d.update(e)` for dicts: fold the entries of `e` into `d`. -/
def pyUpdate {α β : Type} [DecidableEq α] (d : List (α × β)) (e : List (α × β)) :
    List (α × β) :=
  e.foldl (fun acc kv => dictInsert acc kv.1 kv.2) d

/-- Keys of a modelled Python dict, in insertion order. -/
def dictKeys {α β : Type} (d : List (α × β)) : List α := d.map Prod.fst

/-- Python `defaultdict(list)` followed by `d[k].append(v)`: append `v` at the
end of the list stored under `k`, creating the entry if absent. -/
def dictAppend {α β : Type} [DecidableEq α] (d : List (α × List β)) (k : α) (v : β) :
    List (α × List β) :=
  match d with
  | [] => [(k, [v])]
  | (k', l) :: rest =>
      if k' = k then (k, l ++ [v]) :: rest else (k', l) :: dictAppend rest k v

/-- Python `str.split(sep)` for a single-character separator: splits on every
occurrence, and the result always has at least one (possibly empty) chunk. -/
def pySplit (sep : Char) : Str → List Str
  | [] => [[]]
  | c :: cs =>
      let r := pySplit sep cs
      if c = sep then [] :: r
      else
        match r with
        | h :: t => (c :: h) :: t
        | [] => [[c]]

/-- Last element of a list of strings, defaulting to the empty string. -/
def lastD : List Str → Str
  | [] => []
  | [x] => x
  | _ :: x :: xs => lastD (x :: xs)

/-- Join chunks with a single-character separator (inverse of `pySplit`). -/
def joinSep (sep : Char) : List Str → Str
  | [] => []
  | [x] => x
  | x :: y :: xs => x ++ sep :: joinSep sep (y :: xs)

/-- Model of `os.path.basename`: the part after the last slash. -/
def basename (s : Str) : Str := lastD (pySplit '/' s)

/-- Model of `os.path.dirname`: the part before the last slash (for the
multi-component absolute paths used throughout; the root-path corner case of
`os.path.dirname` is not needed). -/
def dirname (s : Str) : Str := joinSep '/' (pySplit '/' s).dropLast

/-- Model of `os.path.join a b` for the cases used by the manager: an absolute
second component replaces the first, otherwise the components are joined with
a slash. -/
def pyJoin (a b : Str) : Str :=
  match b with
  | '/' :: _ => b
  | _ => a ++ '/' :: b

/-- Model of the extension extracted by
`os.path.splitext(input_file)[1][1:]`: the part after the last dot of the
base name, or empty if the base name has no dot. -/
def extOf (f : Str) : Str :=
  let parts := pySplit '.' (basename f)
  if parts.length ≤ 1 then [] else lastD parts

/-- Exceptions raised by the Python code of `sim_manager.py`. -/
inductive PyErr where
  | exception (msg : Str)
  | notImplemented
  | valueError (msg : Str)
  | indexError
  | keyError (k : Str)
  | typeError (msg : Str)
  | fileNotFound (p : Str)
  | assertionError
  deriving DecidableEq, Repr

/-- Message of the `Exception` raised by `SimManager.default_network` with
zero networks. -/
def msgNoNetworks : Str := "No networks found for this simulation.".toList

/-- Message of the `Exception` raised by `SimManager.get_single_net` when the
network count differs from one. -/
def msgMultipleNetworks : Str :=
  "More than one network in simulation, must specify network name.".toList

/-- Message of the `Exception` raised by `SimManager.update_edge_type_props`
when no edge descriptors exist for the requested pair. -/
def msgNoEdges : Str := "Could not find edges for the specified networks.".toList

/-- Node file descriptor: the two path entries of a `nodes` block element of
the config that `sim_manager.py` touches. -/
structure NodeSet where
  nodes_file : Str
  node_types_file : Str
  deriving DecidableEq, Repr

/-- Edge file descriptor: the two path entries of an `edges` block element of
the config that `sim_manager.py` touches. -/
structure EdgeSet where
  edges_file : Str
  edge_types_file : Str
  deriving DecidableEq, Repr

/-- Model of the module-level function `nodes_net_name`:
`os.path.basename(nodes_file).split('_')[0]`; total, since `split` always
yields at least one chunk. -/
def nodes_net_name (nodeset : NodeSet) : Str :=
  (pySplit '_' (basename nodeset.nodes_file)).headD []

/-- Model of the module-level function `edges_net_pair`:
`src, dest = os.path.basename(edge_file).split('_')[0:2]`.  The slice has two
elements exactly when the split does, and unpacking a one-element slice raises
`ValueError` in Python. -/
def edges_net_pair (edgeset : EdgeSet) : Except PyErr (Str × Str) :=
  match pySplit '_' (basename edgeset.edges_file) with
  | src :: dest :: _ => .ok (src, dest)
  | _ => .error (.valueError "not enough values to unpack".toList)

/-- JSON-like values of the configuration document. -/
inductive JVal where
  | str (s : Str)
  | num (n : Int)
  | bool (b : Bool)
  | null
  | arr (elems : List JVal)
  | obj (fields : List (Str × JVal))

/-- A configuration document: the top-level JSON object, as a Python dict. -/
abbrev ConfigDoc := List (Str × JVal)

mutual

/-- Modelled from the spec: the recursive merge step of
`ConfigBuilder.update_nested` (`config_class.py` is not part of the supplied
sources); per spec section 4.1, when both old and new values are nested
mappings they are merged recursively, otherwise the new value overwrites. -/
def deepMerge : JVal → JVal → JVal
  | .obj old, .obj new => .obj (mergeObj old new)
  | _, v => v

/-- Merge the entries of a new object into an old one, key by key: an
existing value under the same key is deep merged in place, a fresh key is
appended. -/
def mergeObj (old : ConfigDoc) : List (Str × JVal) → ConfigDoc
  | [] => old
  | (k, v) :: rest =>
      mergeObj (dictInsert old k (match dictGet old k with
        | some w => deepMerge w v
        | none => v)) rest

end

/-- Modelled from the spec: `ConfigBuilder.update_nested(**kwargs)` deep
merges the keyword arguments into the top-level configuration document. -/
def update_nested (doc : ConfigDoc) (kwargs : ConfigDoc) : ConfigDoc :=
  mergeObj doc kwargs

/-- One row of a space-delimited type CSV as read by `csv.DictReader`: the
header fields paired with the row values, missing values defaulting to the
empty string (modelling the `None` restval). -/
def zipPad : List Str → List Str → List (Str × Str)
  | [], _ => []
  | h :: hs, [] => (h, []) :: zipPad hs []
  | h :: hs, v :: vs => (h, v) :: zipPad hs vs

/-- The dict `csv.DictReader` yields for one data line. -/
def rowDict (header line : List Str) : List (Str × Str) :=
  (zipPad header line).foldl (fun d hv => dictInsert d hv.1 hv.2) []

/-- Model of the module-level function `update_csv`, at the level of parsed
file contents (a list of space-delimited lines).  It reads all rows through
`csv.DictReader`, computes `rows = [dict(row, **props) for row in reader]`,
then reopens the file with mode `'w'` — which truncates it — and only then
evaluates `rows[0].keys()`; with zero data rows this raises `IndexError`
after the truncation.  The result is the raised exception (if any) paired
with the final on-disk content of the file. -/
def update_csv (lines : List (List Str)) (props : List (Str × Str)) :
    Option PyErr × List (List Str) :=
  let rows :=
    match lines with
    | [] => []
    | header :: dataLines => dataLines.map (fun l => pyUpdate (rowDict header l) props)
  match rows with
  | [] => (some .indexError, [])
  | r0 :: _ =>
      let fieldnames := dictKeys r0
      (none, fieldnames :: rows.map (fun r => fieldnames.map (fun f => (dictGet r f).getD [])))

/-- Contents of a file in the modelled filesystem. -/
inductive FileContent where
  | json (doc : JVal)
  | csv (lines : List (List Str))
  | data (tag : Str)

/-- The filesystem: a dict from absolute paths to file contents. -/
abbrev Disk := List (Str × FileContent)

/-- A `bmtk` `NetworkBuilder` as seen by the manager: its name, plus the
(source, target) pairs of the edge sets that were built into it, which
determine the files its external `save` method writes. -/
structure Net where
  name : Str
  edge_pairs : List (Str × Str)

/-- Model of the external `bmtk` `NetworkBuilder.save(net_path)`: writes the
node files `{name}_nodes.h5` / `{name}_node_types.csv` and per edge set the
files `{src}_{trg}_edges.h5` / `{src}_{trg}_edge_types.csv` under `net_path`
(the naming convention of spec section 6), and returns the node file dict, the
list of edge file dicts, and the performed disk writes. -/
def netSave (net : Net) (net_path : Str) :
    NodeSet × List EdgeSet × List (Str × FileContent) :=
  let nf := pyJoin net_path (net.name ++ "_nodes.h5".toList)
  let ntf := pyJoin net_path (net.name ++ "_node_types.csv".toList)
  let eds := net.edge_pairs.map (fun p =>
    EdgeSet.mk (pyJoin net_path (p.1 ++ '_' :: p.2 ++ "_edges.h5".toList))
      (pyJoin net_path (p.1 ++ '_' :: p.2 ++ "_edge_types.csv".toList)))
  let writes := (nf, FileContent.data net.name) :: (ntf, FileContent.data net.name)
    :: eds.flatMap (fun e =>
      [(e.edges_file, FileContent.data net.name), (e.edge_types_file, FileContent.data net.name)])
  (NodeSet.mk nf ntf, eds, writes)

/-- The state of a `SimManager` plus the filesystem it operates on. -/
structure SMState where
  sim_folder : Str
  config_path : Str
  /-- In-memory configuration document (`self.config` of `ConfigBuilder`). -/
  config : ConfigDoc
  /-- `self._networks_active`: dict of name to active network builder. -/
  networks_active : List (Str × Net)
  /-- `self._nodes_dict`: dict of net name to nodes file dict. -/
  nodes_dict : List (Str × NodeSet)
  /-- `self._edges_dict`: dict of (src, trg) name pair to edge file dicts. -/
  edges_dict : List ((Str × Str) × List EdgeSet)
  disk : Disk
  /-- Warnings actually emitted; `sim_manager.py` never emits any, since its
  bare `Warning("...")` statements construct and discard exception objects. -/
  warnings : List Str

/-- The `networks` property: active names followed by saved names. -/
def networks (s : SMState) : List Str :=
  dictKeys s.networks_active ++ dictKeys s.nodes_dict

/-- The `networks_saved` property: keys of the saved nodes dict. -/
def networks_saved (s : SMState) : List Str := dictKeys s.nodes_dict

/-- `SimManager.abspath`: `os.path.join(self.sim_folder, filename)`. -/
def abspath (s : SMState) (filename : Str) : Str := pyJoin s.sim_folder filename

/-- The `network_dir` property is the constant relative folder. -/
def network_dir : Str := "network".toList

/-- `SimManager.default_network`. -/
def default_network (s : SMState) : Except PyErr Str :=
  if (networks s).length = 0 then .error (.exception msgNoNetworks)
  else if (networks s).length = 1 then .ok ((networks s).headD [])
  else .error .notImplemented

/-- `SimManager.get_single_net`. -/
def get_single_net (s : SMState) : Except PyErr Str :=
  if (networks s).length = 1 then .ok ((networks s).headD [])
  else .error (.exception msgMultipleNetworks)

/-- `SimManager.add_network`: unconditional dict assignment
`self._networks_active[network.name] = network` (the collision check is only a
TODO comment in the source). -/
def add_network (s : SMState) (network : Net) : SMState :=
  { s with networks_active := dictInsert s.networks_active network.name network }

/-- `SimManager.new_network`: builds an empty `NetworkBuilder` with the given
name, registers it with `add_network` and returns it. -/
def new_network (s : SMState) (net_name : Str) : Net × SMState :=
  let net : Net := ⟨net_name, []⟩
  (net, add_network s net)

/-- `SimManager.add_networks`. -/
def add_networks (s : SMState) (nets : List Net) : SMState :=
  nets.foldl add_network s

/-- `SimManager.clear_output`: `shutil.rmtree` of `sim_folder/output` with
`ignore_errors=True`. -/
def clear_output (s : SMState) : SMState :=
  let out_dir := pyJoin s.sim_folder "output".toList
  { s with disk := s.disk.filter (fun pc => !(out_dir ++ ['/']).isPrefixOf pc.1) }

/-- Modelled from the spec: `ConfigBuilder.save` (from the absent
`config_class.py`) writes the in-memory document back to the config path. -/
def config_save (s : SMState) : SMState :=
  { s with disk := dictInsert s.disk s.config_path (.json (.obj s.config)) }

/-- Model of `os.path.relpath(path, base)` for the only case exercised by the
manager, where `base` is an ancestor of `path`. -/
def relpathFrom (p base : Str) : Str :=
  if (base ++ ['/']).isPrefixOf p then p.drop (base.length + 1) else p

/-- The path trimming of `save_network_files`: identity for absolute paths,
otherwise `os.path.join of $NETWORK_DIR with os.path.relpath(path, net_path)`. -/
def trim_path (use_abs_paths : Bool) (net_path : Str) (p : Str) : Str :=
  if use_abs_paths then p else pyJoin "$NETWORK_DIR".toList (relpathFrom p net_path)

/-- JSON encoding of a nodes file dict, as serialized into the config. -/
def nodeSetJ (ns : NodeSet) : JVal :=
  .obj [("nodes_file".toList, .str ns.nodes_file),
        ("node_types_file".toList, .str ns.node_types_file)]

/-- JSON encoding of an edges file dict, as serialized into the config. -/
def edgeSetJ (es : EdgeSet) : JVal :=
  .obj [("edges_file".toList, .str es.edges_file),
        ("edge_types_file".toList, .str es.edge_types_file)]

/-- The value stored under the `networks` key of the config by the
`self.config.update` call of `save_network_files`: a two-entry object whose
`nodes` entry is `self._nodes_dict.values()` and whose `edges` entry is
`sum(self._edges_dict.values(), [])`. -/
def networksVal (nodes : List (Str × NodeSet))
    (edges : List ((Str × Str) × List EdgeSet)) : JVal :=
  .obj [("nodes".toList, .arr (nodes.map (fun p => nodeSetJ p.2))),
        ("edges".toList, .arr ((edges.map Prod.snd).flatten.map edgeSetJ))]

/-- Accumulator of the saving loop of `save_network_files`: the evolving
`_nodes_dict`, `_edges_dict` and filesystem. -/
structure SaveAcc where
  nodes : List (Str × NodeSet)
  edges : List ((Str × Str) × List EdgeSet)
  disk : Disk

/-- The inner loop of `save_network_files` over the returned edge
file dicts: trim both paths of each dict, then append it to
`self._edges_dict[edges_net_pair(edgeset)]`; `edges_net_pair` may raise. -/
def addEdgeSets (trim : Str → Str) :
    List EdgeSet → List ((Str × Str) × List EdgeSet) →
    Except PyErr (List ((Str × Str) × List EdgeSet))
  | [], d => .ok d
  | e :: rest, d =>
      let et : EdgeSet := ⟨trim e.edges_file, trim e.edge_types_file⟩
      match edges_net_pair et with
      | .error er => .error er
      | .ok pr => addEdgeSets trim rest (dictAppend d pr et)

/-- The loop of `save_network_files` over `self._networks_active.items()`:
networks whose name is already in `self._nodes_dict` (the saved set, which
grows during the loop) are skipped; the others are saved through the external
builder, their returned paths trimmed, and the descriptors registered. -/
def saveLoop (trim : Str → Str) (net_path : Str) :
    List (Str × Net) → SaveAcc → Except PyErr SaveAcc
  | [], acc => .ok acc
  | (name, net) :: rest, acc =>
      if name ∈ dictKeys acc.nodes then saveLoop trim net_path rest acc
      else
        match addEdgeSets trim (netSave net net_path).2.1 acc.edges with
        | .error e => .error e
        | .ok edges1 =>
            saveLoop trim net_path rest
              ⟨dictInsert acc.nodes name
                  ⟨trim (netSave net net_path).1.nodes_file,
                   trim (netSave net net_path).1.node_types_file⟩,
                edges1,
                (netSave net net_path).2.2.foldl
                  (fun d pc => dictInsert d pc.1 pc.2) acc.disk⟩

/-- The tail of `save_network_files` after the loop: store the new dicts,
rewrite the `networks` block of the config and persist the config. -/
def saveFinish (s : SMState) (acc : SaveAcc) : SMState :=
  config_save
    { s with
      nodes_dict := acc.nodes
      edges_dict := acc.edges
      disk := acc.disk
      config := dictInsert s.config "networks".toList (networksVal acc.nodes acc.edges) }

/-- `SimManager.save_network_files(use_abs_paths)`. -/
def save_network_files (use_abs_paths : Bool) (s : SMState) : Except PyErr SMState :=
  match saveLoop (trim_path use_abs_paths (abspath s network_dir))
      (abspath s network_dir) s.networks_active
      ⟨s.nodes_dict, s.edges_dict, s.disk⟩ with
  | .error e => .error e
  | .ok acc => .ok (saveFinish s acc)

/-- Model of the path resolution of the external `bmtk` `ConfigDict`, which
substitutes the `$NETWORK_DIR` manifest variable when loading the config. -/
def resolvePath (sim_folder : Str) (p : Str) : Str :=
  if ("$NETWORK_DIR/".toList).isPrefixOf p
  then pyJoin (pyJoin sim_folder network_dir) (p.drop "$NETWORK_DIR/".toList.length)
  else p

/-- Field access inside a JSON object. -/
def jObjGet (v : JVal) (k : Str) : Option JVal :=
  match v with
  | .obj l => dictGet l k
  | _ => none

/-- Read one element of the `networks.nodes` list of the config: the two path
fields accessed by the manager, with manifest variables resolved. -/
def parseNodeSet (resolve : Str → Str) (v : JVal) : Except PyErr NodeSet :=
  match jObjGet v "nodes_file".toList, jObjGet v "node_types_file".toList with
  | some (.str a), some (.str b) => .ok ⟨resolve a, resolve b⟩
  | _, _ => .error (.keyError "nodes_file".toList)

/-- Read one element of the `networks.edges` list of the config. -/
def parseEdgeSet (resolve : Str → Str) (v : JVal) : Except PyErr EdgeSet :=
  match jObjGet v "edges_file".toList, jObjGet v "edge_types_file".toList with
  | some (.str a), some (.str b) => .ok ⟨resolve a, resolve b⟩
  | _, _ => .error (.keyError "edges_file".toList)

/-- The import branch of `SimManager.load_networks`: under `import_nodes`,
each listed node set is re-created as an active network named after its
nodes file (the external `import_nodes` node population is not modelled). -/
def load_networks_import (s : SMState) (import_nodes : Bool)
    (nodesets : List NodeSet) : SMState :=
  if import_nodes then
    nodesets.foldl (fun st ns => (new_network st (nodes_net_name ns)).2) s
  else s

/-- The registry updates of `SimManager.load_networks` once the `nodes` and
`edges` lists are in hand: merge the node descriptors keyed by
`nodes_net_name` (later entries win, as in the Python dict comprehension) and
append each edge descriptor under its `edges_net_pair` key. -/
def load_networks_core (s : SMState) (import_nodes : Bool)
    (nodesets : List NodeSet) (edgesets : List EdgeSet) : Except PyErr SMState :=
  match edgesets.foldlM
      (fun d es => (edges_net_pair es).map (fun pr => dictAppend d pr es))
      (load_networks_import s import_nodes nodesets).edges_dict with
  | .error e => .error e
  | .ok ed =>
      .ok { load_networks_import s import_nodes nodesets with
            nodes_dict := pyUpdate
              (load_networks_import s import_nodes nodesets).nodes_dict
              (nodesets.foldl (fun d ns => dictInsert d (nodes_net_name ns) ns) [])
            edges_dict := ed }

/-- The entry point of `SimManager.load_networks`: read the `nodes` and
`edges` lists of the `networks` block of the config (through the resolving
`configdict`) and hand them to the core above. -/
def load_networks (import_nodes : Bool) (s : SMState) : Except PyErr SMState :=
  match dictGet s.config "networks".toList with
  | none => .ok s
  | some netsJ =>
      match jObjGet netsJ "nodes".toList, jObjGet netsJ "edges".toList with
      | some (.arr nodes_raw), some (.arr edges_raw) =>
          match nodes_raw.mapM (parseNodeSet (resolvePath s.sim_folder)),
                edges_raw.mapM (parseEdgeSet (resolvePath s.sim_folder)) with
          | .ok nodesets, .ok edgesets =>
              load_networks_core s import_nodes nodesets edgesets
          | .error e, _ => .error e
          | _, .error e => .error e
      | _, _ => .error (.keyError "nodes".toList)

/-- Whether a path is a file on the modelled disk (`os.path.isfile`). -/
def isfile (disk : Disk) (p : Str) : Bool := (dictGet disk p).isSome

/-- The `SimManager` constructor: load the configuration document from the
config path (`ConfigBuilder.from_json` together with the resolving
`ConfigDict.load` of `bmtk`), start with empty registries and run
`load_networks`. -/
def SimManager_init (config_path : Str) (disk : Disk) : Except PyErr SMState :=
  match dictGet disk config_path with
  | some (.json (.obj fields)) =>
      load_networks false
        { sim_folder := dirname config_path
          config_path := config_path
          config := fields
          networks_active := []
          nodes_dict := []
          edges_dict := []
          disk := disk
          warnings := [] }
  | some _ => .error (.valueError "invalid config document".toList)
  | none => .error (.fileNotFound config_path)

/-- Modelled from the spec: `ConfigClass.load_template` (from the absent
`config_class.py`) copies the template document to the target config path
(the `shared_components` path rewriting is not modelled). -/
def load_template (template : JVal) (config_path : Str) (disk : Disk) : Disk :=
  dictInsert disk config_path (.json template)

/-- `SimManager.from_template`: resolve the target config path, copy the
template there when `overwrite` is set or no config file exists — otherwise
the bare statement `Warning("Config file already exists: loading config
without template.")` has no effect — then construct the manager from the
target path, clearing the output folder when `overwrite` is set.
`os.path.expandvars`, `os.path.expanduser` and `os.makedirs` are modelled as
identities (directories are implicit in the path-keyed filesystem). -/
def from_template (config_template : JVal) (config_file : Str)
    (sim_folder : Option Str) (config_path : Option Str) (overwrite : Bool)
    (cwd : Str) (disk : Disk) : Except PyErr SMState :=
  let cpath :=
    match config_path with
    | some p => p
    | none => pyJoin (sim_folder.getD cwd) config_file
  let disk1 :=
    if overwrite || !isfile disk cpath
    then load_template config_template cpath disk
    else disk
  match SimManager_init cpath disk1 with
  | .error e => .error e
  | .ok sm => .ok (if overwrite then clear_output sm else sm)

/-- `SimManager.nodes_file(net)`: resolve a missing name through
`get_single_net`, then return `abspath` of the stored descriptor path. -/
def nodes_file (s : SMState) (net : Option Str) : Except PyErr Str :=
  match (match net with | some n => Except.ok n | none => get_single_net s) with
  | .error e => .error e
  | .ok n =>
      match dictGet s.nodes_dict n with
      | none => .error (.keyError n)
      | some ns => .ok (abspath s ns.nodes_file)

/-- `SimManager.node_types_file(net)`: same resolution as `nodes_file`. -/
def node_types_file (s : SMState) (net : Option Str) : Except PyErr Str :=
  match (match net with | some n => Except.ok n | none => get_single_net s) with
  | .error e => .error e
  | .ok n =>
      match dictGet s.nodes_dict n with
      | none => .error (.keyError n)
      | some ns => .ok (abspath s ns.node_types_file)

/-- `update_csv` applied to a file of the modelled filesystem: a missing file
raises before anything is written; otherwise the file ends up with the final
content computed by `update_csv` even when `IndexError` is raised after the
`'w'`-mode truncation. -/
def update_csv_file (s : SMState) (path : Str) (props : List (Str × Str)) :
    Option PyErr × SMState :=
  match dictGet s.disk path with
  | some (.csv lines) =>
      let r := update_csv lines props
      (r.1, { s with disk := dictInsert s.disk path (.csv r.2) })
  | some _ => (some (.valueError "not a csv file".toList), s)
  | none => (some (.fileNotFound path), s)

/-- `SimManager.update_node_type_props`: assert the network is saved, then
update its node types CSV. -/
def update_node_type_props (s : SMState) (net_name : Str)
    (props : List (Str × Str)) : Option PyErr × SMState :=
  if net_name ∈ networks_saved s then
    match node_types_file s (some net_name) with
    | .error e => (some e, s)
    | .ok path => update_csv_file s path props
  else (some .assertionError, s)

/-- `SimManager.update_edge_type_props`: raise when no descriptors exist for
the pair; with several descriptors the source evaluates
`Warning("Multiple edge files exist for given pair of networks.")` — which
emits nothing — and proceeds with the first descriptor of the list. -/
def update_edge_type_props (s : SMState) (src_name dest_name : Str)
    (props : List (Str × Str)) : Option PyErr × SMState :=
  match dictGet s.edges_dict (src_name, dest_name) with
  | none => (some (.exception msgNoEdges), s)
  | some [] => (some (.exception msgNoEdges), s)
  | some (e :: _) => update_csv_file s (abspath s e.edge_types_file) props

/-- The three granularities of `SimManager.save_copy`. -/
inductive CopyLevel where
  | folder
  | network
  | complete

/-- `os.path.exists` on the modelled disk: a file with that exact path, or a
file strictly below it (a directory). -/
def pathExists (disk : Disk) (p : Str) : Bool :=
  disk.any (fun pc => pc.1 == p || (p ++ ['/']).isPrefixOf pc.1)

/-- `shutil.rmtree`: drop the file at the path and everything below it. -/
def rmtree (disk : Disk) (p : Str) : Disk :=
  disk.filter (fun pc => !(pc.1 == p || (p ++ ['/']).isPrefixOf pc.1))

/-- `shutil.copytree src dst` for a fresh `dst`: every file below `src`
reappears at the corresponding path below `dst`. -/
def copyTree (disk : Disk) (src dst : Str) : Disk :=
  disk ++ disk.filterMap (fun pc =>
    if (src ++ ['/']).isPrefixOf pc.1
    then some (dst ++ '/' :: pc.1.drop (src.length + 1), pc.2)
    else none)

/-- The copying tail of `save_copy` once the target is known not to exist:
copy at the requested granularity (`complete` delegates to the
`NotImplementedError` stub `save_complete`), construct a manager on the copied
config and clear its output folder.  The first component of the result is the
source manager observing the shared filesystem; the second is the returned
manager for the copy. -/
def saveCopyBody (s : SMState) (folder_path : Str) (level : CopyLevel) :
    Except PyErr (SMState × Option SMState) :=
  let disk2E : Except PyErr Disk :=
    match level with
    | .folder => .ok (copyTree s.disk s.sim_folder folder_path)
    | .network =>
        match dictGet s.disk s.config_path with
        | none => .error (.fileNotFound s.config_path)
        | some c =>
            .ok (copyTree
              (dictInsert s.disk (pyJoin folder_path (basename s.config_path)) c)
              (abspath s network_dir) (pyJoin folder_path network_dir))
    | .complete => .error .notImplemented
  match disk2E with
  | .error e => .error e
  | .ok disk2 =>
      match SimManager_init (pyJoin folder_path (basename s.config_path)) disk2 with
      | .error e => .error e
      | .ok sm =>
          let sm2 := clear_output sm
          .ok ({ s with disk := sm2.disk }, some sm2)

/-- `SimManager.save_copy(folder_path, overwrite, level)`: when the target
exists it is removed first under `overwrite`, and otherwise the method
evaluates the no-effect statement `Warning("Folder exists; aborting.")` and
returns `None` without touching anything. -/
def save_copy (s : SMState) (folder_path : Str) (overwrite : Bool)
    (level : CopyLevel) : Except PyErr (SMState × Option SMState) :=
  if pathExists s.disk folder_path then
    if overwrite then
      saveCopyBody { s with disk := rmtree s.disk folder_path } folder_path level
    else .ok (s, none)
  else saveCopyBody s folder_path level

/-- Decimal rendering of an integer, for the electrode CSV. -/
def intStr (i : Int) : Str := (toString i).toList

/-- `SimManager.write_electrode_file`: header row then one row per location,
written as a space-delimited CSV. -/
def write_electrode_file (locs : List (List Int)) (csv_file_name : Str)
    (disk : Disk) : Disk :=
  let header := ["channel".toList, "x_pos".toList, "y_pos".toList, "z_pos".toList]
  dictInsert disk csv_file_name
    (.csv (header :: (locs.enum.map (fun p => (toString p.1).toList :: p.2.map intStr))))

/-- `SimManager.add_ecp_report`: write the electrode file when none is given,
build the single-entry `ecp_report` mapping and deep merge it into the
`reports` section of the config.  Unlike every other `add_*` method of the class,
the source does not call `self.config.save()` afterwards. -/
def add_ecp_report (s : SMState) (electrode_file : Option Str) (cells : JVal)
    (file_name : Str) (locs : List (List Int)) (save_contributions : Bool) :
    SMState :=
  let efs :=
    match electrode_file with
    | none =>
        let ef := "electrode.csv".toList
        (ef, { s with disk := write_electrode_file locs (abspath s ef) s.disk })
    | some ef => (ef, s)
  let reports : ConfigDoc := [("ecp_report".toList, .obj
    [("cells".toList, cells),
     ("variable_name".toList, .str "v".toList),
     ("module".toList, .str "extracellular".toList),
     ("electrode_positions".toList, .str efs.1),
     ("file_name".toList, .str file_name),
     ("electrode_channels".toList, .str "all".toList),
     ("contributions_dir".toList,
       if save_contributions then .str "ecp_contributions".toList else .null)])]
  { efs.2 with config := update_nested efs.2.config [("reports".toList, .obj reports)] }

/-- `SimManager.add_membrane_report`: single-entry `reports` mapping under the
given name, extended with the keyword arguments, deep merged and persisted. -/
def add_membrane_report (s : SMState) (name : Str) (variablesList : List Str)
    (cells : JVal) (sections : Str) (file_name : Option Str)
    (kwargs : ConfigDoc) : SMState :=
  let entry : ConfigDoc :=
    [("module".toList, .str "membrane_report".toList),
     ("variable_name".toList, .arr (variablesList.map .str)),
     ("cells".toList, cells),
     ("file_name".toList, .str (file_name.getD (name ++ ".h5".toList))),
     ("sections".toList, .str sections)]
  let cfg2 := update_nested s.config
    [("reports".toList, .obj [(name, .obj (pyUpdate entry kwargs))])]
  config_save { s with config := cfg2 }

/-- `SimManager.link_spike_input_file`: single-entry `inputs` mapping keyed by
`name or net_name + "_spikes"`, with `module` the file extension, deep merged
and persisted. -/
def link_spike_input_file (s : SMState) (input_file : Str) (net_name : Str)
    (trial : JVal) (name : Option Str) : SMState :=
  let nm := name.getD (net_name ++ "_spikes".toList)
  let entry : JVal := .obj
    [("input_type".toList, .str "spikes".toList),
     ("module".toList, .str (extOf input_file)),
     ("input_file".toList, .str input_file),
     ("node_set".toList, .str net_name),
     ("trial".toList, trial)]
  let cfg2 := update_nested s.config [("inputs".toList, .obj [(nm, entry)])]
  config_save { s with config := cfg2 }

/-- `SimManager.add_current_clamp_input`: single-entry `inputs` mapping with
the amplitude, delay and duration read from the argument dict (`KeyError`
when absent), deep merged and persisted. -/
def add_current_clamp_input (s : SMState) (input_dict : ConfigDoc)
    (iclamp_name : Str) : Except PyErr SMState :=
  match dictGet input_dict "amp".toList with
  | none => .error (.keyError "amp".toList)
  | some amp =>
      match dictGet input_dict "delay".toList with
      | none => .error (.keyError "delay".toList)
      | some delay =>
          match dictGet input_dict "duration".toList with
          | none => .error (.keyError "duration".toList)
          | some duration =>
              let entry : JVal := .obj
                [("input_type".toList, .str "current_clamp".toList),
                 ("module".toList, .str "IClamp".toList),
                 ("node_set".toList, .str "all".toList),
                 ("amp".toList, amp),
                 ("delay".toList, delay),
                 ("duration".toList, duration)]
              let cfg2 := update_nested s.config
                [("inputs".toList, .obj [(iclamp_name, entry)])]
              .ok (config_save { s with config := cfg2 })

/-- The registry-mutating operations named by the reachability claim. -/
inductive MgrOp where
  | newNet (n : Str)
  | addNet (net : Net)
  | addNets (nets : List Net)
  | loadNets (import_nodes : Bool)
  | saveFiles (use_abs_paths : Bool)

/-- Apply one operation to a manager state. -/
def applyOp (s : SMState) : MgrOp → Except PyErr SMState
  | .newNet n => .ok (new_network s n).2
  | .addNet net => .ok (add_network s net)
  | .addNets nets => .ok (add_networks s nets)
  | .loadNets b => load_networks b s
  | .saveFiles b => save_network_files b s

/-- Apply a sequence of operations, stopping at the first raised exception. -/
def runOps (s : SMState) : List MgrOp → Except PyErr SMState
  | [] => .ok s
  | op :: rest =>
      match applyOp s op with
      | .error e => .error e
      | .ok s1 => runOps s1 rest

/-- A freshly constructed manager before its initial `load_networks` call:
empty registries over a given configuration document and filesystem. -/
def startState (folder config_path : Str) (cfg : ConfigDoc) (disk : Disk) :
    SMState :=
  ⟨folder, config_path, cfg, [], [], [], disk, []⟩

/-- Formalization of the edge-file naming convention of spec section 6: the
base name begins with two underscore-delimited tokens followed by more, as in
`{source}_{target}_edges.h5`. -/
def conformingEdgeName (f : Str) : Bool :=
  3 ≤ (pySplit '_' (basename f)).length

/-- Top-level keys of the JSON document stored on disk at a path, when the
path holds a JSON object. -/
def diskDocKeys (d : Disk) (p : Str) : Option (List Str) :=
  match dictGet d p with
  | some (.json (.obj l)) => some (dictKeys l)
  | _ => none

/-- A manager state over the fixed simulation folder `/sim`, for concrete
scenarios. -/
def mkState (active : List (Str × Net)) (nodes : List (Str × NodeSet))
    (edges : List ((Str × Str) × List EdgeSet)) (cfg : ConfigDoc) (disk : Disk) :
    SMState :=
  ⟨"/sim".toList, "/sim/config.json".toList, cfg, active, nodes, edges, disk, []⟩

/-- Uniqueness of names within each registry: every dict has duplicate-free
keys. -/
def RegistryKeysOK (s : SMState) : Prop :=
  (dictKeys s.networks_active).Nodup ∧ (dictKeys s.nodes_dict).Nodup

/-- Concrete input state of the idempotence scenario: one active network,
nothing saved yet. -/
def c3in : SMState := mkState [("A".toList, ⟨"A".toList, []⟩)] [] [] [] []

/-- The state after one `save_network_files` call on `c3in`. -/
def c3out : SMState :=
  match save_network_files false c3in with
  | .ok t => t
  | .error _ => c3in

/-- Concrete start state after a single `new_network` call, for the registry
invariant witness. -/
def c2wit : SMState :=
  match runOps (startState "/sim".toList "/sim/config.json".toList [] [])
      [.newNet "A".toList] with
  | .ok t => t
  | .error _ => startState "/sim".toList "/sim/config.json".toList [] []

/-- Concrete template document for the `from_template` scenarios. -/
def t4ex : JVal := .obj [("template_marker".toList, .null)]

/-- Concrete filesystem with an existing config at `/w/config.json` whose
document differs from the template. -/
def d4ex : Disk := [("/w/config.json".toList, .json (.obj [("run".toList, .null)]))]

/-- Concrete manager state with an empty config document on disk, for the
input/report persistence scenarios. -/
def s7ex : SMState :=
  mkState [] [] [] [] [("/sim/config.json".toList, .json (.obj []))]

/-- First edge descriptor of the ambiguous pair of the edge-update scenario. -/
def e8a : EdgeSet :=
  ⟨"/sim/network/a_b_edges.h5".toList, "/sim/network/a_b_edge_types.csv".toList⟩

/-- Second edge descriptor of the ambiguous pair. -/
def e8b : EdgeSet :=
  ⟨"/sim/network/a_b_edges_2.h5".toList, "/sim/network/a_b_edge_types_2.csv".toList⟩

/-- Concrete manager state with two edge descriptors registered for the pair
`("a", "b")` and both edge type CSV files on disk. -/
def s8ex : SMState :=
  mkState [] [] [(("a".toList, "b".toList), [e8a, e8b])] []
    [("/sim/network/a_b_edge_types.csv".toList,
        .csv [["edge_type_id".toList, "delay".toList], ["0".toList, "1".toList]]),
     ("/sim/network/a_b_edge_types_2.csv".toList,
        .csv [["edge_type_id".toList, "delay".toList], ["0".toList, "5".toList]])]

/-- Concrete manager state with a config file, an existing output file, and an
unrelated pre-existing file under the copy target `/t`. -/
def s9ex : SMState :=
  mkState [] [] [] []
    [("/sim/config.json".toList, .json (.obj [])),
     ("/sim/output/spikes.h5".toList, .data "old-results".toList),
     ("/t/existing.txt".toList, .data "occupied".toList)]

theorem mem_dictKeys_dictInsert {α β : Type} [DecidableEq α]
    (d : List (α × β)) (k a : α) (v : β) :
    a ∈ dictKeys (dictInsert d k v) ↔ a ∈ dictKeys d ∨ a = k := by
  induction d with
  | nil => simp [dictInsert, dictKeys]
  | cons hd tl ih =>
      obtain ⟨k', v'⟩ := hd
      by_cases h : k' = k
      · subst h
        simp [dictInsert, dictKeys]
        tauto
      · simp [dictInsert, h, dictKeys] at ih ⊢
        tauto

theorem nodup_dictKeys_dictInsert {α β : Type} [DecidableEq α]
    {d : List (α × β)} (k : α) (v : β) (h : (dictKeys d).Nodup) :
    (dictKeys (dictInsert d k v)).Nodup := by
  induction d with
  | nil => simp [dictInsert, dictKeys]
  | cons hd tl ih =>
      obtain ⟨k', v'⟩ := hd
      simp only [dictKeys, List.map_cons, List.nodup_cons] at h
      by_cases hk : k' = k
      · subst hk
        simpa [dictInsert, dictKeys] using h
      · simp only [dictInsert, hk, if_false, dictKeys, List.map_cons, List.nodup_cons]
        refine ⟨fun hmem => ?_, ih h.2⟩
        rcases (mem_dictKeys_dictInsert tl k k' v).mp hmem with h1 | h1
        · exact h.1 h1
        · exact hk h1

theorem nodup_dictKeys_pyUpdate {α β : Type} [DecidableEq α]
    {d : List (α × β)} (e : List (α × β)) (h : (dictKeys d).Nodup) :
    (dictKeys (pyUpdate d e)).Nodup := by
  induction e generalizing d with
  | nil => exact h
  | cons kv rest ih =>
      exact ih (nodup_dictKeys_dictInsert kv.1 kv.2 h)

@[simp]
theorem dictGet_dictInsert_self {α β : Type} [DecidableEq α]
    (d : List (α × β)) (k : α) (v : β) :
    dictGet (dictInsert d k v) k = some v := by
  induction d with
  | nil => simp [dictInsert, dictGet]
  | cons hd tl ih =>
      obtain ⟨k', v'⟩ := hd
      by_cases h : k' = k
      · simp [dictInsert, dictGet, h]
      · simp [dictInsert, dictGet, h, ih]

@[simp]
theorem dictInsert_dictInsert {α β : Type} [DecidableEq α]
    (d : List (α × β)) (k : α) (v w : β) :
    dictInsert (dictInsert d k v) k w = dictInsert d k w := by
  induction d with
  | nil => simp [dictInsert]
  | cons hd tl ih =>
      obtain ⟨k', v'⟩ := hd
      by_cases h : k' = k
      · simp [dictInsert, h]
      · simp [dictInsert, h, ih]

theorem pySplit_ne_nil (sep : Char) (l : Str) : pySplit sep l ≠ [] := by
  cases l with
  | nil => simp [pySplit]
  | cons c cs =>
      simp only [pySplit]
      split
      · simp
      · split
        · simp
        · simp

theorem length_pySplit (sep : Char) (l : Str) :
    (pySplit sep l).length = l.count sep + 1 := by
  induction l with
  | nil => simp [pySplit]
  | cons c cs ih =>
      simp only [pySplit]
      by_cases h : c = sep
      · simp [h, List.count_cons, ih]
      · obtain ⟨hd, tl, heq⟩ : ∃ hd tl, pySplit sep cs = hd :: tl := by
          cases hp : pySplit sep cs with
          | nil => exact absurd hp (pySplit_ne_nil sep cs)
          | cons hd tl => exact ⟨hd, tl, rfl⟩
        simp [h, heq, List.count_cons, Ne.symm h, ← ih, heq]

theorem pySplit_of_not_mem {sep : Char} {xs : Str} (h : sep ∉ xs) :
    pySplit sep xs = [xs] := by
  induction xs with
  | nil => simp [pySplit]
  | cons c cs ih =>
      simp only [List.mem_cons, not_or] at h
      simp [pySplit, Ne.symm h.1, ih h.2]

theorem pySplit_append_sep {sep : Char} {xs : Str} (ys : Str) (h : sep ∉ xs) :
    pySplit sep (xs ++ sep :: ys) = xs :: pySplit sep ys := by
  induction xs with
  | nil => simp [pySplit]
  | cons c cs ih =>
      simp only [List.mem_cons, not_or] at h
      simp [pySplit, Ne.symm h.1, ih h.2]

theorem lastD_cons_of_ne_nil {x : Str} {xs : List Str} (h : xs ≠ []) :
    lastD (x :: xs) = lastD xs := by
  cases xs with
  | nil => exact absurd rfl h
  | cons y ys => simp [lastD]

theorem lastD_pySplit_append {sep : Char} (xs ys : Str) :
    lastD (pySplit sep (xs ++ sep :: ys)) = lastD (pySplit sep ys) := by
  induction xs with
  | nil =>
      simp only [List.nil_append, pySplit, if_pos rfl]
      exact lastD_cons_of_ne_nil (pySplit_ne_nil sep ys)
  | cons c cs ih =>
      simp only [List.cons_append, pySplit, List.append_eq]
      by_cases h : c = sep
      · rw [if_pos h]
        rw [lastD_cons_of_ne_nil (pySplit_ne_nil sep (cs ++ sep :: ys))]
        exact ih
      · rw [if_neg h]
        obtain ⟨hd, tl, heq⟩ : ∃ hd tl, pySplit sep (cs ++ sep :: ys) = hd :: tl := by
          cases hp : pySplit sep (cs ++ sep :: ys) with
          | nil => exact absurd hp (pySplit_ne_nil sep _)
          | cons hd tl => exact ⟨hd, tl, rfl⟩
        rw [heq]
        have htl : tl ≠ [] := by
          have hlen := length_pySplit sep (cs ++ sep :: ys)
          rw [heq] at hlen
          intro hnil
          rw [hnil] at hlen
          simp [List.count_append, List.count_cons] at hlen
        rw [lastD_cons_of_ne_nil htl, ← lastD_cons_of_ne_nil (x := hd) htl, ← heq]
        exact ih

theorem basename_append {dir name : Str} (h : '/' ∉ name) :
    basename (dir ++ '/' :: name) = name := by
  rw [basename, lastD_pySplit_append, pySplit_of_not_mem h, lastD]

theorem dictGet_dictInsert_ne {α β : Type} [DecidableEq α]
    {d : List (α × β)} {k k' : α} (v : β) (h : k' ≠ k) :
    dictGet (dictInsert d k' v) k = dictGet d k := by
  induction d with
  | nil => simp [dictInsert, dictGet, h]
  | cons hd tl ih =>
      obtain ⟨k0, v0⟩ := hd
      by_cases h0 : k0 = k'
      · subst h0
        simp [dictInsert, dictGet, h]
      · by_cases h1 : k0 = k
        · simp [dictInsert, dictGet, h0, h1, Ne.symm h]
        · simp [dictInsert, dictGet, h0, h1, ih]

theorem dictGet_pyUpdate_not_mem {α β : Type} [DecidableEq α]
    {d e : List (α × β)} {k : α} (h : k ∉ dictKeys e) :
    dictGet (pyUpdate d e) k = dictGet d k := by
  induction e generalizing d with
  | nil => rfl
  | cons kv rest ih =>
      simp only [dictKeys, List.map_cons, List.mem_cons, not_or] at h
      show dictGet (pyUpdate (dictInsert d kv.1 kv.2) rest) k = dictGet d k
      rw [ih (by simpa [dictKeys] using h.2), dictGet_dictInsert_ne kv.2 (Ne.symm h.1)]

theorem dictGet_pyUpdate_mem {α β : Type} [DecidableEq α]
    {d e : List (α × β)} {k : α} {v : β}
    (hnd : (dictKeys e).Nodup) (h : (k, v) ∈ e) :
    dictGet (pyUpdate d e) k = some v := by
  induction e generalizing d with
  | nil => cases h
  | cons kv rest ih =>
      simp only [dictKeys, List.map_cons, List.nodup_cons] at hnd
      rcases List.mem_cons.mp h with h1 | h1
      · subst h1
        show dictGet (pyUpdate (dictInsert d k v) rest) k = some v
        rw [dictGet_pyUpdate_not_mem (by simpa [dictKeys] using hnd.1)]
        exact dictGet_dictInsert_self d k v
      · exact ih hnd.2 h1

theorem mem_dictKeys_pyUpdate_base {α β : Type} [DecidableEq α]
    (e : List (α × β)) {d : List (α × β)} {a : α} (h : a ∈ dictKeys d) :
    a ∈ dictKeys (pyUpdate d e) := by
  induction e generalizing d with
  | nil => exact h
  | cons kv rest ih =>
      exact ih ((mem_dictKeys_dictInsert d kv.1 a kv.2).mpr (Or.inl h))

theorem mem_dictKeys_pyUpdate {α β : Type} [DecidableEq α]
    (d e : List (α × β)) {a : α} (h : a ∈ dictKeys e) :
    a ∈ dictKeys (pyUpdate d e) := by
  induction e generalizing d with
  | nil => cases h
  | cons kv rest ih =>
      simp only [dictKeys, List.map_cons, List.mem_cons] at h
      rcases h with h1 | h1
      · subst h1
        exact mem_dictKeys_pyUpdate_base rest
          ((mem_dictKeys_dictInsert d kv.1 kv.1 kv.2).mpr (Or.inr rfl))
      · exact ih _ h1

theorem zipPad_map_self {g : Str → Str} (xs : List Str) :
    zipPad xs (xs.map g) = xs.map (fun x => (x, g x)) := by
  induction xs with
  | nil => rfl
  | cons x rest ih => simp [zipPad, ih]

theorem rowDict_eq_pyUpdate (header line : List Str) :
    rowDict header line = pyUpdate [] (zipPad header line) := rfl

theorem dictGet_pyUpdate_fun {g : Str → Str} (xs : List Str)
    (d : List (Str × Str)) (k : Str) :
    dictGet (pyUpdate d (xs.map (fun x => (x, g x)))) k
      = if k ∈ xs then some (g k) else dictGet d k := by
  induction xs generalizing d with
  | nil => simp [pyUpdate]
  | cons x rest ih =>
      show dictGet (pyUpdate (dictInsert d x (g x)) (rest.map (fun x => (x, g x)))) k
        = if k ∈ x :: rest then some (g k) else dictGet d k
      rw [ih]
      by_cases hm : k ∈ rest
      · simp [hm]
      · by_cases hx : k = x
        · subst hx
          simp [hm, dictGet_dictInsert_self]
        · simp [hm, hx, dictGet_dictInsert_ne (g x) (Ne.symm hx)]

/-- C1: evaluation of the code at the failing input.  Registering an active
network named `A` and then calling `new_network("A")` raises nothing: the
second call silently replaces the first network (its built edge sets are
lost), instead of failing with an AlreadyExists error and leaving the
registries unchanged. -/
theorem c1_new_network_overwrites :
    (runOps (startState "/sim".toList "/sim/config.json".toList [] [])
        [.addNet ⟨"A".toList, [("x".toList, "y".toList)]⟩, .newNet "A".toList]).toOption.map
      (fun s => s.networks_active)
      = some [("A".toList, ⟨"A".toList, []⟩)] := rfl

/-- C2 counterexample: from a fresh manager, `new_network("A")` followed by
`save_network_files()` is a reachable sequence after which the `networks`
property lists the name `A` twice — once from the still-active set and once
from the saved set — refuting the cross-set uniqueness invariant. -/
theorem c2_counterexample :
    (runOps (startState "/sim".toList "/sim/config.json".toList [] [])
        [.newNet "A".toList, .saveFiles false]).toOption.map networks
      = some ["A".toList, "A".toList]
    ∧ ¬ (["A".toList, "A".toList] : List Str).Nodup :=
  ⟨rfl, by decide⟩

/-- C5 (amended): `default_network` raises the "no networks" `Exception` with
zero networks, returns the sole name with one, and raises a bare
`NotImplementedError` (not an ambiguity-specific error) with two or more.
Operations taking an optional network name resolve a missing name through
`get_single_net`, not `default_network`; `get_single_net` raises the "more
than one network" `Exception` in every case other than exactly one network,
including the zero-network case, so the propagated error differs from
those of `default_network` there. -/
theorem c5_default_network_resolution (s : SMState) :
    ((networks s).length = 0 →
        default_network s = .error (.exception msgNoNetworks)
        ∧ get_single_net s = .error (.exception msgMultipleNetworks)
        ∧ node_types_file s none = .error (.exception msgMultipleNetworks)
        ∧ nodes_file s none = .error (.exception msgMultipleNetworks))
    ∧ (∀ n, networks s = [n] → default_network s = .ok n ∧ get_single_net s = .ok n)
    ∧ (2 ≤ (networks s).length →
        default_network s = .error .notImplemented
        ∧ get_single_net s = .error (.exception msgMultipleNetworks)
        ∧ node_types_file s none = .error (.exception msgMultipleNetworks)) := by
  refine ⟨fun h0 => ?_, fun n hn => ?_, fun h2 => ?_⟩
  · have hg : get_single_net s = .error (.exception msgMultipleNetworks) := by
      simp [get_single_net, h0]
    exact ⟨by simp [default_network, h0], hg,
      by simp [node_types_file, hg], by simp [nodes_file, hg]⟩
  · constructor
    · simp [default_network, hn]
    · simp [get_single_net, hn]
  · have h1 : ¬ (networks s).length = 1 := by omega
    have h0 : ¬ (networks s).length = 0 := by omega
    have hg : get_single_net s = .error (.exception msgMultipleNetworks) := by
      simp [get_single_net, h1]
    exact ⟨by simp [default_network, h0, h1], hg, by simp [node_types_file, hg]⟩

/-- C5 counterexample: with zero networks registered, resolving an omitted
network name (here in `node_types_file`) goes through `get_single_net` and
surfaces the "more than one network" `Exception`, which is not the
"no networks" error that `default_network` raises on the same state — so
optional-name operations do not propagate the errors of `default_network`. -/
theorem c5_counterexample :
    default_network (mkState [] [] [] [] []) = .error (.exception msgNoNetworks)
    ∧ node_types_file (mkState [] [] [] [] []) none
        = .error (.exception msgMultipleNetworks)
    ∧ PyErr.exception msgNoNetworks ≠ PyErr.exception msgMultipleNetworks :=
  ⟨rfl, rfl, by decide⟩

/-- C5 witness: the amended theorem applied to the concrete empty state. -/
theorem c5_witness :
    default_network (mkState [] [] [] [] []) = .error (.exception msgNoNetworks)
    ∧ get_single_net (mkState [] [] [] [] []) = .error (.exception msgMultipleNetworks)
    ∧ node_types_file (mkState [] [] [] [] []) none
        = .error (.exception msgMultipleNetworks)
    ∧ nodes_file (mkState [] [] [] [] []) none
        = .error (.exception msgMultipleNetworks) :=
  (c5_default_network_resolution (mkState [] [] [] [] [])).1 rfl

/-- C6 (amended): for a conforming edge file name
`{dir}/{src}_{tgt}_{rest}` with underscore-free `src` and `tgt`, the
extraction yields `(src, tgt)`; and `edges_net_pair` raises (a `ValueError`)
exactly when the base name contains no underscore at all, so a one-underscore
name — which does not follow the `{source}_{target}_` convention — is
silently parsed as a (wrong) pair instead of failing or warning. -/
theorem c6_edge_pair_extraction (dir src tgt rest etf : Str)
    (hs : '_' ∉ src) (ht : '_' ∉ tgt)
    (hn : '/' ∉ src ++ '_' :: (tgt ++ '_' :: rest)) :
    edges_net_pair ⟨dir ++ '/' :: (src ++ '_' :: (tgt ++ '_' :: rest)), etf⟩
        = .ok (src, tgt)
    ∧ ∀ es : EdgeSet,
        (∃ e, edges_net_pair es = .error e) ↔ '_' ∉ basename es.edges_file := by
  constructor
  · have hb : basename (dir ++ '/' :: (src ++ '_' :: (tgt ++ '_' :: rest)))
        = src ++ '_' :: (tgt ++ '_' :: rest) := basename_append hn
    have hsplit : pySplit '_' (src ++ '_' :: (tgt ++ '_' :: rest))
        = src :: tgt :: pySplit '_' rest := by
      rw [pySplit_append_sep _ hs, pySplit_append_sep _ ht]
    simp only [edges_net_pair, hb, hsplit]
  · intro es
    unfold edges_net_pair
    rcases hsp : pySplit '_' (basename es.edges_file) with _ | ⟨a, _ | ⟨b, l⟩⟩
    · exact absurd hsp (pySplit_ne_nil _ _)
    · have hcount : (basename es.edges_file).count '_' = 0 := by
        have := length_pySplit '_' (basename es.edges_file)
        rw [hsp] at this
        simpa using this.symm
      simp only [hsp]
      constructor
      · intro _
        exact List.count_eq_zero.mp hcount
      · exact fun _ => ⟨_, rfl⟩
    · have hcount : (basename es.edges_file).count '_' + 1 = l.length + 2 := by
        have := length_pySplit '_' (basename es.edges_file)
        rw [hsp] at this
        simpa using this.symm
      simp only [hsp]
      constructor
      · rintro ⟨e, he⟩
        cases he
      · intro hmem
        rw [List.count_eq_zero.mpr hmem] at hcount
        omega

/-- C6 counterexample: the file name `foo_edges.h5` does not follow the
`{source}_{target}_` naming convention, yet `edges_net_pair` succeeds and
silently extracts the wrong pair `("foo", "edges.h5")` instead of failing or
warning. -/
theorem c6_counterexample :
    conformingEdgeName "foo_edges.h5".toList = false
    ∧ edges_net_pair ⟨"foo_edges.h5".toList, "foo_edge_types.csv".toList⟩
        = .ok ("foo".toList, "edges.h5".toList) :=
  ⟨rfl, rfl⟩

/-- C6 witness: the amended theorem applied to the conforming concrete name
`/a/b/foo_bar_edges.h5`. -/
theorem c6_witness :
    edges_net_pair ⟨"/a/b".toList ++ '/' ::
        ("foo".toList ++ '_' :: ("bar".toList ++ '_' :: "edges.h5".toList)),
        "t.csv".toList⟩ = .ok ("foo".toList, "bar".toList) :=
  (c6_edge_pair_extraction "/a/b".toList "foo".toList "bar".toList
    "edges.h5".toList "t.csv".toList (by decide) (by decide) (by decide)).1

/-- C7: evaluation at the failing input.  On a state whose config document is
empty both in memory and on disk, `add_membrane_report` and
`link_spike_input_file` merge their single-entry mapping and persist it (the
on-disk document gains the `reports` resp. `inputs` section), but
`add_ecp_report` only updates the in-memory document — its merge is never
followed by `config.save()`, so the on-disk document is left unchanged. -/
theorem c7_add_ecp_report_not_persisted :
    dictKeys (add_ecp_report s7ex (some "e.csv".toList) (.str "all".toList)
        "ecp.h5".toList [] false).config = ["reports".toList]
    ∧ (add_ecp_report s7ex (some "e.csv".toList) (.str "all".toList)
        "ecp.h5".toList [] false).disk = s7ex.disk
    ∧ diskDocKeys s7ex.disk "/sim/config.json".toList = some []
    ∧ diskDocKeys (add_membrane_report s7ex "membrane_report".toList ["v".toList]
        (.str "all".toList) "soma".toList none []).disk "/sim/config.json".toList
        = some ["reports".toList]
    ∧ diskDocKeys (link_spike_input_file s7ex "spike_input.csv".toList
        "net".toList .null none).disk "/sim/config.json".toList
        = some ["inputs".toList] :=
  ⟨rfl, rfl, rfl, rfl, rfl⟩

/-- C8: evaluation at the failing input.  With zero descriptors for a pair,
`update_edge_type_props` raises the "could not find edges" `Exception` (as
the claim says); with two descriptors it succeeds using the first
edge types file of the first descriptor — the second file is untouched — but no warning
is surfaced: the bare `Warning(...)` statement emits nothing, so the
warnings stream stays empty. -/
theorem c8_update_edge_type_props_eval :
    (update_edge_type_props s8ex "x".toList "y".toList
        [("delay".toList, "9".toList)]).1 = some (.exception msgNoEdges)
    ∧ (update_edge_type_props s8ex "a".toList "b".toList
        [("delay".toList, "9".toList)]).1 = none
    ∧ dictGet (update_edge_type_props s8ex "a".toList "b".toList
          [("delay".toList, "9".toList)]).2.disk
        "/sim/network/a_b_edge_types.csv".toList
        = some (.csv [["edge_type_id".toList, "delay".toList],
                      ["0".toList, "9".toList]])
    ∧ dictGet (update_edge_type_props s8ex "a".toList "b".toList
          [("delay".toList, "9".toList)]).2.disk
        "/sim/network/a_b_edge_types_2.csv".toList
        = some (.csv [["edge_type_id".toList, "delay".toList],
                      ["0".toList, "5".toList]])
    ∧ (update_edge_type_props s8ex "a".toList "b".toList
        [("delay".toList, "9".toList)]).2.warnings = [] :=
  ⟨rfl, rfl, rfl, rfl, rfl⟩

/-- C9: evaluation at the failing input.  With the target `/t` already
existing and `overwrite` false, `save_copy` is a no-op returning `None` — the
source folder, the target and the whole filesystem are untouched — but no
warning is emitted (the bare `Warning("Folder exists; aborting.")` has no
effect, so the warnings stream stays empty).  On the fresh target `/u` the
folder is copied and the `output` subdirectory of the copy is cleared. -/
theorem c9_save_copy_eval :
    save_copy s9ex "/t".toList false .folder = .ok (s9ex, none)
    ∧ s9ex.warnings = []
    ∧ (save_copy s9ex "/u".toList false .folder).toOption.map
        (fun r => pathExists r.1.disk "/u/output".toList) = some false
    ∧ (save_copy s9ex "/u".toList false .folder).toOption.map
        (fun r => isfile r.1.disk "/u/config.json".toList) = some true
    ∧ (save_copy s9ex "/u".toList false .folder).toOption.map
        (fun r => isfile r.1.disk "/sim/output/spikes.h5".toList) = some true :=
  ⟨rfl, rfl, rfl, rfl, rfl⟩

/-- C10 counterexample: on a node types CSV with a header but zero data rows,
`update_csv` does raise (`IndexError` at `rows[0]`), but only after the
`open(csv_path, 'w')` call has truncated the file: the final on-disk content
is empty rather than the original, so the update does write (destroy) the
file instead of leaving it unwritten. -/
theorem c10_counterexample :
    (update_csv [["node_type_id".toList, "model_type".toList]]
        [("model_type".toList, "virtual".toList)]).1 = some .indexError
    ∧ (update_csv [["node_type_id".toList, "model_type".toList]]
        [("model_type".toList, "virtual".toList)]).2 = []
    ∧ ([] : List (List Str)) ≠ [["node_type_id".toList, "model_type".toList]] :=
  ⟨rfl, rfl, by decide⟩

/-- C10 (amended): with at least one data row, `update_csv` succeeds, writes
one output line per data row plus a header, uses the key set of the first
updated row as the output columns, and applies the given property mapping uniformly:
reading any written data row back against the written header yields exactly
the property values for every property key.  With zero data rows it raises
`IndexError`, but only after the `'w'`-mode open has truncated the file to
empty — the original content is destroyed rather than left unwritten. -/
theorem c10_update_csv_uniform (header l0 : List Str) (ls : List (List Str))
    (props : List (Str × Str)) (hnd : (dictKeys props).Nodup) :
    (update_csv (header :: l0 :: ls) props).1 = none
    ∧ (update_csv (header :: l0 :: ls) props).2.length = ls.length + 2
    ∧ ((update_csv (header :: l0 :: ls) props).2.headD []
        = dictKeys (pyUpdate (rowDict header l0) props))
    ∧ (∀ row ∈ ((update_csv (header :: l0 :: ls) props).2).tail, ∀ kv ∈ props,
        dictGet (rowDict ((update_csv (header :: l0 :: ls) props).2.headD []) row) kv.1
          = some kv.2)
    ∧ (∀ hd : List Str, update_csv [hd] props = (some .indexError, []))
    ∧ update_csv ([] : List (List Str)) props = (some .indexError, []) := by
  refine ⟨rfl, ?_, rfl, ?_, fun hd => rfl, rfl⟩
  · simp [update_csv]
  · intro row hrow kv hkv
    have hrow' : row ∈ ((l0 :: ls).map
        (fun l => pyUpdate (rowDict header l) props)).map
          (fun r => (dictKeys (pyUpdate (rowDict header l0) props)).map
            (fun f => (dictGet r f).getD [])) := hrow
    obtain ⟨r, hr, hrow2⟩ := List.mem_map.mp hrow'
    subst hrow2
    obtain ⟨l, _, hform⟩ := List.mem_map.mp hr
    show dictGet (rowDict (dictKeys (pyUpdate (rowDict header l0) props))
      ((dictKeys (pyUpdate (rowDict header l0) props)).map
        (fun f => (dictGet r f).getD []))) kv.1 = some kv.2
    rw [rowDict_eq_pyUpdate, zipPad_map_self, dictGet_pyUpdate_fun]
    have hmem : kv.1 ∈ dictKeys (pyUpdate (rowDict header l0) props) :=
      mem_dictKeys_pyUpdate _ _ (List.mem_map.mpr ⟨kv, hkv, rfl⟩)
    rw [if_pos hmem]
    have hget : dictGet r kv.1 = some kv.2 := by
      rw [← hform]
      exact dictGet_pyUpdate_mem hnd (by simpa using hkv)
    rw [hget]
    rfl

/-- C10 witness: the amended theorem applied to a concrete two-column file
with one data row, and to a concrete header-only file. -/
theorem c10_witness :
    (update_csv [["a".toList, "b".toList], ["1".toList, "2".toList]]
        [("b".toList, "9".toList)]).1 = none
    ∧ update_csv [["a".toList]] [("b".toList, "9".toList)]
        = (some .indexError, []) :=
  ⟨(c10_update_csv_uniform ["a".toList, "b".toList] ["1".toList, "2".toList] []
      [("b".toList, "9".toList)] (by decide)).1,
   (c10_update_csv_uniform ["a".toList, "b".toList] ["1".toList, "2".toList] []
      [("b".toList, "9".toList)] (by decide)).2.2.2.2.1 ["a".toList]⟩

/-- C4 (amended): `from_template` never fails because the target exists.
When the target config file already exists and `overwrite` is not requested,
the template is not copied: the manager is constructed from the existing file
unchanged (a silent fallback — the `Warning` statement in that branch emits
nothing).  When the target is absent, or `overwrite` is requested, the
template document is copied to the target path first; under `overwrite` the
output folder of the resulting manager is additionally cleared. -/
theorem c4_from_template_behavior (template : JVal) (p : Str) (d : Disk)
    (cwd : Str) :
    (isfile d p = true →
        from_template template "config.json".toList none (some p) false cwd d
          = SimManager_init p d)
    ∧ (isfile d p = false →
        from_template template "config.json".toList none (some p) false cwd d
          = SimManager_init p (load_template template p d))
    ∧ from_template template "config.json".toList none (some p) true cwd d
        = (SimManager_init p (load_template template p d)).map clear_output := by
  refine ⟨fun h => ?_, fun h => ?_, ?_⟩
  · simp only [from_template, h, Bool.not_true, Bool.false_or, if_false]
    cases h2 : SimManager_init p d <;> simp [h2]
  · simp only [from_template, h, Bool.not_false, Bool.false_or, if_true]
    cases h2 : SimManager_init p (load_template template p d) <;> simp [h2]
  · simp only [from_template, Bool.true_or, if_true]
    cases h2 : SimManager_init p (load_template template p d) <;> simp [h2, Except.map]

/-- C4 counterexample: with an existing config at `/w/config.json` and
`overwrite` false, `from_template` does not fail: it succeeds, the document of the manager is the existing one (not the template), and the filesystem is
unchanged (the template was never copied) — refuting "fails exactly when the
target exists and overwrite was not requested". -/
theorem c4_counterexample :
    isfile d4ex "/w/config.json".toList = true
    ∧ (from_template t4ex "config.json".toList none (some "/w/config.json".toList)
        false "/cwd".toList d4ex).toOption.map (fun sm => sm.config)
        = some [("run".toList, JVal.null)]
    ∧ (from_template t4ex "config.json".toList none (some "/w/config.json".toList)
        false "/cwd".toList d4ex).toOption.map (fun sm => sm.disk) = some d4ex :=
  ⟨rfl, rfl, rfl⟩

/-- C4 witness: the amended theorem applied to the concrete filesystem with
an existing target. -/
theorem c4_witness :
    from_template t4ex "config.json".toList none (some "/w/config.json".toList)
        false "/cwd".toList d4ex
      = SimManager_init "/w/config.json".toList d4ex :=
  (c4_from_template_behavior t4ex "/w/config.json".toList d4ex "/cwd".toList).1 rfl

theorem keysOK_add_network {s : SMState} (net : Net) (h : RegistryKeysOK s) :
    RegistryKeysOK (add_network s net) :=
  ⟨nodup_dictKeys_dictInsert _ _ h.1, h.2⟩

theorem keysOK_add_networks (nets : List Net) {s : SMState}
    (h : RegistryKeysOK s) : RegistryKeysOK (add_networks s nets) := by
  induction nets generalizing s with
  | nil => exact h
  | cons n rest ih => exact ih (keysOK_add_network n h)

theorem keysOK_foldl_new (nodesets : List NodeSet) {s : SMState}
    (h : RegistryKeysOK s) :
    RegistryKeysOK (nodesets.foldl
      (fun st ns => (new_network st (nodes_net_name ns)).2) s) := by
  induction nodesets generalizing s with
  | nil => exact h
  | cons n rest ih => exact ih (keysOK_add_network _ h)

theorem keysOK_load_networks_core {s t : SMState} {b : Bool}
    {nodesets : List NodeSet} {edgesets : List EdgeSet}
    (h : load_networks_core s b nodesets edgesets = .ok t)
    (hk : RegistryKeysOK s) : RegistryKeysOK t := by
  unfold load_networks_core at h
  split at h
  · exact absurd h (by simp)
  · have hinj := Except.ok.inj h
    subst hinj
    have h1 : RegistryKeysOK (load_networks_import s b nodesets) := by
      unfold load_networks_import
      by_cases hb : b
      · simpa [hb] using keysOK_foldl_new nodesets hk
      · simpa [hb] using hk
    exact ⟨h1.1, nodup_dictKeys_pyUpdate _ h1.2⟩

theorem keysOK_load_networks {s t : SMState} (b : Bool)
    (h : load_networks b s = .ok t) (hk : RegistryKeysOK s) :
    RegistryKeysOK t := by
  unfold load_networks at h
  split at h
  · exact Except.ok.inj h ▸ hk
  · split at h
    · split at h
      · exact keysOK_load_networks_core h hk
      · exact absurd h (by simp)
      · exact absurd h (by simp)
    · exact absurd h (by simp)

theorem saveLoop_nodes_nodup (trim : Str → Str) (np : Str) :
    ∀ (l : List (Str × Net)) (acc acc' : SaveAcc),
      saveLoop trim np l acc = .ok acc' →
      (dictKeys acc.nodes).Nodup → (dictKeys acc'.nodes).Nodup := by
  intro l
  induction l with
  | nil =>
      intro acc acc' h hn
      exact Except.ok.inj h ▸ hn
  | cons p rest ih =>
      intro acc acc' h hn
      obtain ⟨name, net⟩ := p
      unfold saveLoop at h
      split at h
      · exact ih acc acc' h hn
      · split at h
        · exact absurd h (by simp)
        · exact ih _ acc' h (nodup_dictKeys_dictInsert _ _ hn)

theorem keysOK_save_network_files {s t : SMState} (b : Bool)
    (h : save_network_files b s = .ok t) (hk : RegistryKeysOK s) :
    RegistryKeysOK t := by
  unfold save_network_files at h
  split at h
  · exact absurd h (by simp)
  case h_2 acc heq =>
    have hinj := Except.ok.inj h
    subst hinj
    refine ⟨hk.1, ?_⟩
    exact saveLoop_nodes_nodup _ _ s.networks_active _ acc heq hk.2

theorem keysOK_applyOp {s t : SMState} (op : MgrOp)
    (h : applyOp s op = .ok t) (hk : RegistryKeysOK s) : RegistryKeysOK t := by
  cases op with
  | newNet n => exact Except.ok.inj h ▸ keysOK_add_network _ hk
  | addNet net => exact Except.ok.inj h ▸ keysOK_add_network _ hk
  | addNets nets => exact Except.ok.inj h ▸ keysOK_add_networks _ hk
  | loadNets b => exact keysOK_load_networks b h hk
  | saveFiles b => exact keysOK_save_network_files b h hk

theorem keysOK_runOps {s t : SMState} (ops : List MgrOp)
    (h : runOps s ops = .ok t) (hk : RegistryKeysOK s) : RegistryKeysOK t := by
  induction ops generalizing s with
  | nil => exact Except.ok.inj h ▸ hk
  | cons op rest ih =>
      unfold runOps at h
      split at h
      · exact absurd h (by simp)
      case h_2 s1 h1 => exact ih h (keysOK_applyOp op h1 hk)

/-- C2 (amended): along every exception-free sequence of `new_network`,
`add_network`, `add_networks`, `load_networks` and `save_network_files`
operations from a fresh manager, each network name occurs at most once
within the active registry and at most once within the saved registry (both
are dicts); but a name may occur in both registries at once — after
`save_network_files` the saved network also remains active — so the
`networks` property, which concatenates the two key lists, can list the same
name twice. -/
theorem c2_registry_keys_nodup (folder cpath : Str) (cfg : ConfigDoc)
    (disk : Disk) (ops : List MgrOp) (s : SMState)
    (h : runOps (startState folder cpath cfg disk) ops = .ok s) :
    RegistryKeysOK s :=
  keysOK_runOps ops h ⟨List.nodup_nil, List.nodup_nil⟩

/-- C2 witness: the amended theorem applied to the concrete one-operation
run that creates the network `A`. -/
theorem c2_witness : RegistryKeysOK c2wit :=
  c2_registry_keys_nodup "/sim".toList "/sim/config.json".toList [] []
    [.newNet "A".toList] c2wit rfl

theorem saveLoop_mono_keys (trim : Str → Str) (np : Str) :
    ∀ (l : List (Str × Net)) (acc acc' : SaveAcc),
      saveLoop trim np l acc = .ok acc' →
      ∀ a ∈ dictKeys acc.nodes, a ∈ dictKeys acc'.nodes := by
  intro l
  induction l with
  | nil =>
      intro acc acc' h a ha
      exact Except.ok.inj h ▸ ha
  | cons q rest ih =>
      intro acc acc' h a ha
      obtain ⟨name, net⟩ := q
      unfold saveLoop at h
      split at h
      · exact ih acc acc' h a ha
      · split at h
        · exact absurd h (by simp)
        · exact ih _ acc' h a ((mem_dictKeys_dictInsert _ _ _ _).mpr (Or.inl ha))

theorem saveLoop_covers (trim : Str → Str) (np : Str) :
    ∀ (l : List (Str × Net)) (acc acc' : SaveAcc),
      saveLoop trim np l acc = .ok acc' →
      ∀ p ∈ l, p.1 ∈ dictKeys acc'.nodes := by
  intro l
  induction l with
  | nil =>
      intro acc acc' h p hp
      cases hp
  | cons q rest ih =>
      intro acc acc' h p hp
      obtain ⟨name, net⟩ := q
      unfold saveLoop at h
      split at h
      case isTrue hmem =>
        rcases List.mem_cons.mp hp with h1 | h1
        · subst h1
          exact saveLoop_mono_keys trim np rest acc acc' h name hmem
        · exact ih acc acc' h p h1
      case isFalse hmem =>
        split at h
        · exact absurd h (by simp)
        · rcases List.mem_cons.mp hp with h1 | h1
          · subst h1
            exact saveLoop_mono_keys trim np rest _ acc' h name
              ((mem_dictKeys_dictInsert _ _ _ _).mpr (Or.inr rfl))
          · exact ih _ acc' h p h1

theorem saveLoop_skip_all (trim : Str → Str) (np : Str) :
    ∀ (l : List (Str × Net)) (acc : SaveAcc),
      (∀ p ∈ l, p.1 ∈ dictKeys acc.nodes) →
      saveLoop trim np l acc = .ok acc := by
  intro l
  induction l with
  | nil =>
      intro acc _
      rfl
  | cons q rest ih =>
      intro acc h
      obtain ⟨name, net⟩ := q
      unfold saveLoop
      rw [if_pos (h (name, net) (List.mem_cons_self _ _))]
      exact ih acc (fun p hp => h p (List.mem_cons_of_mem _ hp))

theorem saveFinish_self (s : SMState) (acc : SaveAcc) :
    saveFinish (saveFinish s acc)
      ⟨(saveFinish s acc).nodes_dict, (saveFinish s acc).edges_dict,
        (saveFinish s acc).disk⟩ = saveFinish s acc := by
  simp [saveFinish, config_save]

/-- C3: `save_network_files` is idempotent.  Any state reached by a
successful call is a fixed point of a second call with the same flag: the
second call skips every active network (each name is in the saved set after
the first call), recomputes the same `networks` block, and rewrites the same
config document to the same disk path, so the registries, the config
document and the whole filesystem — network files included — are exactly
those of the single call. -/
theorem c3_save_network_files_idempotent (use_abs : Bool) (s t : SMState)
    (h : save_network_files use_abs s = .ok t) :
    save_network_files use_abs t = .ok t := by
  unfold save_network_files at h
  split at h
  · exact absurd h (by simp)
  case h_2 acc heq =>
    have hinj := Except.ok.inj h
    subst hinj
    have hcov : ∀ p ∈ s.networks_active, p.1 ∈ dictKeys acc.nodes :=
      saveLoop_covers _ _ s.networks_active _ acc heq
    unfold save_network_files
    rw [saveLoop_skip_all
      (trim_path use_abs (abspath (saveFinish s acc) network_dir))
      (abspath (saveFinish s acc) network_dir)
      (saveFinish s acc).networks_active
      ⟨(saveFinish s acc).nodes_dict, (saveFinish s acc).edges_dict,
        (saveFinish s acc).disk⟩ hcov]
    show Except.ok (saveFinish (saveFinish s acc)
      ⟨(saveFinish s acc).nodes_dict, (saveFinish s acc).edges_dict,
        (saveFinish s acc).disk⟩) = Except.ok (saveFinish s acc)
    rw [saveFinish_self]

/-- C3 witness: the idempotence theorem applied to the concrete state with
one unsaved active network `A`: the first call succeeds and its result is a
fixed point of the second call. -/
theorem c3_witness :
    save_network_files false c3in = .ok c3out
    ∧ save_network_files false c3out = .ok c3out := by
  have h1 : save_network_files false c3in = .ok c3out := rfl
  exact ⟨h1, c3_save_network_files_idempotent false c3in c3out h1⟩
